import Mathlib

/-!
Shallow embedding of `app/core/backtest_engine.py` (function `run_backtest`)
and verification of the specification's claims about it.

Modelling conventions:
* Python numbers are rationals (`ℚ`); the special float values NaN and ±Inf,
  which the code tests for explicitly in the Sharpe extraction, are modelled
  by the symbolic type `FVal`.
* A pandas DataFrame is modelled by its shape (`columns`, `n_rows`), which is
  all the engine's validation inspects.
* A Python dict of strategy parameters is an association list (`ParamMap`)
  with Python `dict.get`/`dict.__setitem__` semantics (`pget` / `pset`).
  For the frame-effect claim, dict identity and mutation are made explicit by
  a heap of dicts (`Heap`) addressed by reference (`dict_copy`,
  `dict_setitem`).
* The `cerebro.run()` call executes the external `backtrader` engine together
  with the repository's strategy classes; it is modelled by an abstract
  oracle `SimOracle` producing either an exception (`Except.error`) or the
  observable outcome `SimOk` that the code reads afterwards: the broker state
  and the analyzers' raw outputs.  `broker.getvalue()` is, per backtrader's
  broker semantics, cash plus the mark-to-market value of the open position.
* Python float division raises `ZeroDivisionError` on a zero divisor; this is
  modelled by `pydiv` returning `Except`.
-/

/-- Python float values as the code observes them: a finite rational, NaN,
`float(\x7binf\x7d)` or `float(-inf)`. -/
inductive FVal where
  | fin (q : ℚ)
  | nan
  | pinf
  | ninf
deriving DecidableEq

/-- Python `==` on `FVal`: NaN compares unequal to everything, itself
included. -/
def fval_beq : FVal → FVal → Bool
  | .fin a, .fin b => a == b
  | .pinf, .pinf => true
  | .ninf, .ninf => true
  | _, _ => false

/-- Strategy-parameter dictionary: association list keyed by strings. -/
abbrev ParamMap := List (String × ℚ)

/-- Python `d.get(k, default)`. -/
def pget : ParamMap → String → ℚ → ℚ
  | [], _, d => d
  | kv :: rest, k, d => if kv.1 = k then kv.2 else pget rest k d

/-- Whether key `k` is present. -/
def has_key : ParamMap → String → Bool
  | [], _ => false
  | kv :: rest, k => if kv.1 = k then true else has_key rest k

/-- Python `d[k] = v`: replace in place when present, append otherwise. -/
def pset (m : ParamMap) (k : String) (v : ℚ) : ParamMap :=
  if has_key m k then m.map (fun kv => if kv.1 = k then (k, v) else kv)
  else m ++ [(k, v)]

/-- Shape of the input pandas DataFrame: its column labels and row count. -/
structure DataFrame where
  columns : List String
  n_rows : Nat
deriving DecidableEq

/-- Trade record attached by a strategy instance (`trades_list` entries). -/
structure Trade where
  entry_price : ℚ
  exit_price : ℚ
  quantity : ℚ
  pnl : ℚ
deriving DecidableEq

/-- Daily position/equity record attached by a strategy instance
(`daily_positions` entries). -/
structure EquityPoint where
  cash : ℚ
  market_value : ℚ
  equity : ℚ
deriving DecidableEq

/-- The result dictionary returned by `run_backtest`. -/
structure BacktestResult where
  final_cash : ℚ
  total_return : ℚ
  sharpe : Option FVal
  max_drawdown : ℚ
  trades : List Trade
  daily_positions : List EquityPoint
  win_rate : ℚ
  avg_trade_return : ℚ
deriving DecidableEq

/-- Observable outcome of a completed `cerebro.run()`: the broker's final
state and the raw analyzer outputs the code reads afterwards.  The `_ok`
flags record whether the corresponding `get_analysis()` extraction succeeds
(the code guards each one with `try/except`). -/
structure SimOk where
  broker_cash : ℚ
  position_size : ℚ
  last_price : ℚ
  sharpe_ok : Bool
  sharpe_raw : Option FVal
  drawdown_ok : Bool
  drawdown_raw : ℚ
  trades_ok : Bool
  trades_total : Nat
  trades_won : Nat
  gross_average : Option ℚ
  trades_list : List Trade
  daily_positions : List EquityPoint
deriving DecidableEq

/-- Abstract model of `cerebro.run()` (backtrader plus the repository's
strategy classes): given the data, the strategy type, the adjusted
parameters, the initial cash and the commission, it either raises
(`Except.error`) or completes with a `SimOk`. -/
abbrev SimOracle := DataFrame → String → ParamMap → ℚ → ℚ → Except String SimOk

/-- Modelled from backtrader broker semantics: `broker.getvalue()` is cash
plus the mark-to-market value of the open position. -/
def broker_getvalue (s : SimOk) : ℚ :=
  s.broker_cash + s.position_size * s.last_price

/-- Python float division: raises `ZeroDivisionError` on a zero divisor. -/
def pydiv (a b : ℚ) : Except String ℚ :=
  if b = 0 then .error "ZeroDivisionError: float division by zero"
  else .ok (a / b)

/-- The required OHLCV columns (line 37). -/
def required_columns : List String := ["Open", "High", "Low", "Close", "Volume"]

/-- Keys of `STRATEGY_MAP` (lines 9-13). -/
def strategy_map_keys : List String := ["sma_cross", "donchian_breakout", "momentum"]

/-- The canonical degraded result returned when `cerebro.run()` raises
(lines 117-126). -/
def degraded_result (initial_cash : ℚ) : BacktestResult :=
  { final_cash := initial_cash
    total_return := 0
    sharpe := none
    max_drawdown := 0
    trades := []
    daily_positions := []
    win_rate := 0
    avg_trade_return := 0 }

/-- Input validation, lines 34-44: `df is None or df.empty`, missing
required columns, fewer than 5 rows. -/
def validate (df : Option DataFrame) : Except String DataFrame :=
  match df with
  | none => .error "DataFrame is empty"
  | some d =>
    if d.n_rows = 0 ∨ d.columns = [] then .error "DataFrame is empty"
    else
      let missing := required_columns.filter (fun col => !(d.columns.contains col))
      if missing ≠ [] then
        .error ("Missing required columns: " ++ String.intercalate ", " missing)
      else if d.n_rows < 5 then
        .error "DataFrame must have at least 5 rows for backtest"
      else .ok d

/-- Parameter adjustment, lines 50-86, acting on the copy of the caller's
dict.  Reads after writes go through the updated dict, exactly as the
sequential mutations do in the source. -/
def adjust_params (strategy_type : String) (p : ParamMap) (data_len : Nat) : ParamMap :=
  if strategy_type = "sma_cross" then
    let max_slow := min (pget p "slow" 50) ((data_len / 3 : Nat) : ℚ)
    let max_fast := min (pget p "fast" 20) (max_slow - 1)
    let p1 := pset p "slow" (max 3 max_slow)
    let p2 := pset p1 "fast" (max 2 max_fast)
    pset p2 "atr_period" (min (pget p2 "atr_period" 14) (max 2 ((data_len / 4 : Nat) : ℚ)))
  else if strategy_type = "donchian_breakout" then
    let p1 := pset p "entry_period"
      (min (pget p "entry_period" 20) (max 2 ((data_len / 3 : Nat) : ℚ)))
    let p2 := pset p1 "exit_period"
      (min (pget p1 "exit_period" 10) (max 2 ((data_len / 4 : Nat) : ℚ)))
    pset p2 "atr_period" (min (pget p2 "atr_period" 14) (max 2 ((data_len / 4 : Nat) : ℚ)))
  else if strategy_type = "momentum" then
    let p1 := pset p "lookback"
      (min (pget p "lookback" 60) (max 5 ((data_len / 2 : Nat) : ℚ)))
    pset p1 "atr_period" (min (pget p1 "atr_period" 14) (max 2 ((data_len / 4 : Nat) : ℚ)))
  else p

/-- Sharpe extraction, lines 132-138: `get('sharperatio', None)`, then NaN
and ±Inf (detected with Python comparisons) are mapped to `None`; a failed
extraction also yields `None`. -/
def extract_sharpe (ok : Bool) (raw : Option FVal) : Option FVal :=
  if ok then
    match raw with
    | none => none
    | some s =>
      if (!fval_beq s s) || fval_beq s .pinf || fval_beq s .ninf then none
      else some s
  else none

/-- Max-drawdown extraction, lines 140-148: the analyzer's percentage is
negated when positive and scaled to a fraction; a failed extraction yields
`0`. -/
def extract_max_drawdown (ok : Bool) (v : ℚ) : ℚ :=
  if ok then (if v > 0 then -v / 100 else v / 100) else 0

/-- Metrics assembly after a successful `cerebro.run()`, lines 128-181. -/
def build_result (s : SimOk) (initial_cash : ℚ) : Except String BacktestResult :=
  let final_value := broker_getvalue s
  match pydiv (final_value - initial_cash) initial_cash with
  | .error e => .error e
  | .ok total_return =>
    let total_trades := if s.trades_ok then s.trades_total else 0
    let won_trades := if s.trades_ok then s.trades_won else 0
    .ok
      { final_cash := final_value
        total_return := total_return
        sharpe := extract_sharpe s.sharpe_ok s.sharpe_raw
        max_drawdown := extract_max_drawdown s.drawdown_ok s.drawdown_raw
        trades := s.trades_list
        daily_positions := s.daily_positions
        win_rate :=
          if 0 < total_trades then (won_trades : ℚ) / ((max total_trades 1 : Nat) : ℚ)
          else 0
        avg_trade_return := if s.trades_ok then s.gross_average.getD 0 else 0 }

/-- Lines 99-126: the `STRATEGY_MAP` lookup (unknown type raises), then the
`try` around `cerebro.run()` whose handler returns the degraded result. -/
def run_core (sim : SimOracle) (d : DataFrame) (strategy_type : String)
    (adjusted : ParamMap) (initial_cash commission : ℚ) : Except String BacktestResult :=
  if strategy_map_keys.contains strategy_type then
    match sim d strategy_type adjusted initial_cash commission with
    | .error _ => .ok (degraded_result initial_cash)
    | .ok s => build_result s initial_cash
  else .error ("Unknown strategy type: " ++ strategy_type)

/-- The full `run_backtest` (lines 28-181): validation, adjustment of a copy
of the caller's parameters, simulation, metrics. -/
def run_backtest (sim : SimOracle) (df : Option DataFrame) (strategy_type : String)
    (strategy_params : ParamMap) (initial_cash commission : ℚ) :
    Except String BacktestResult :=
  match validate df with
  | .error m => .error m
  | .ok d =>
    run_core sim d strategy_type (adjust_params strategy_type strategy_params d.n_rows)
      initial_cash commission

/-- Heap of parameter dicts, making Python dict identity and in-place
mutation explicit for the frame-effect claim. -/
abbrev Heap := List ParamMap

/-- Dereference a dict. -/
def heap_get (h : Heap) (r : Nat) : ParamMap := (h.get? r).getD []

/-- Overwrite the dict an existing reference points to. -/
def heap_set (h : Heap) (r : Nat) (m : ParamMap) : Heap := h.set r m

/-- Python `d.copy()`: allocate a fresh dict holding the same entries. -/
def dict_copy (h : Heap) (r : Nat) : Heap × Nat := (h ++ [heap_get h r], h.length)

/-- Line 47 followed by lines 50-86: copy the caller's dict, then perform
every mutation on the copy. -/
def adjust_params_heap (h : Heap) (r0 : Nat) (strategy_type : String) (data_len : Nat) :
    Heap × Nat :=
  let hr := dict_copy h r0
  (heap_set hr.1 hr.2 (adjust_params strategy_type (heap_get hr.1 hr.2) data_len), hr.2)

/-- `run_backtest` with the caller's parameter dict passed by reference into
an explicit heap, returning the heap as it stands when the call returns or
raises. -/
def run_backtest_heap (sim : SimOracle) (h : Heap) (df : Option DataFrame)
    (strategy_type : String) (params_ref : Nat) (initial_cash commission : ℚ) :
    Except String BacktestResult × Heap :=
  match validate df with
  | .error m => (.error m, h)
  | .ok d =>
    let hr := adjust_params_heap h params_ref strategy_type d.n_rows
    (run_core sim d strategy_type (heap_get hr.1 hr.2) initial_cash commission, hr.1)

/-- One step of backtrader's DrawDown analyzer over an equity curve: update
the running peak, then the running maximum percentage drawdown. -/
def dd_step (acc : ℚ × ℚ) (v : ℚ) : ℚ × ℚ :=
  let peak := max acc.1 v
  (peak, max acc.2 (100 * ((peak - v) / peak)))

/-- Modelled from backtrader analyzer semantics: the `max.drawdown` value is
the maximum percentage decline from the running peak over the equity curve. -/
def dd_percent (curve : List ℚ) : ℚ := (curve.foldl dd_step (0, 0)).2

/-- Projection used to state results about successful calls. -/
def run_result (e : Except String BacktestResult) : Option BacktestResult :=
  match e with
  | .ok r => some r
  | .error _ => none

/-- Projection used to state results about raising calls. -/
def run_error_msg (e : Except String BacktestResult) : Option String :=
  match e with
  | .ok _ => none
  | .error m => some m

/-! ### Dictionary lemmas -/

theorem pget_map_replace_same (m : ParamMap) (k : String) (v d : ℚ) :
    pget (m.map (fun kv => if kv.1 = k then (k, v) else kv)) k d
      = if has_key m k then v else d := by
  induction m with
  | nil => rfl
  | cons kv rest ih =>
    by_cases hk : kv.1 = k
    · simp [pget, has_key, hk]
    · simp [pget, has_key, hk, ih]

theorem pget_append_single_same (m : ParamMap) (k : String) (v d : ℚ)
    (h : has_key m k = false) : pget (m ++ [(k, v)]) k d = v := by
  induction m with
  | nil => simp [pget]
  | cons kv rest ih =>
    by_cases hk : kv.1 = k
    · simp [has_key, hk] at h
    · simp only [has_key, if_neg hk] at h
      simp [pget, hk, ih h]

theorem pget_pset_same (m : ParamMap) (k : String) (v d : ℚ) :
    pget (pset m k v) k d = v := by
  unfold pset
  by_cases h : has_key m k = true
  · simp [h, pget_map_replace_same]
  · simp only [Bool.not_eq_true] at h
    simp [h, pget_append_single_same m k v d h]

theorem pget_map_replace_ne (m : ParamMap) (k k2 : String) (v d : ℚ) (hne : k ≠ k2) :
    pget (m.map (fun kv => if kv.1 = k then (k, v) else kv)) k2 d = pget m k2 d := by
  induction m with
  | nil => rfl
  | cons kv rest ih =>
    by_cases hk : kv.1 = k
    · have hk2 : kv.1 ≠ k2 := by rw [hk]; exact hne
      simp [pget, hk, hne, hk2, ih]
    · by_cases hk2 : kv.1 = k2
      · simp [pget, hk, hk2, Ne.symm hne]
      · simp [pget, hk, hk2, ih]

theorem pget_append_single_ne (m : ParamMap) (k k2 : String) (v d : ℚ) (hne : k ≠ k2) :
    pget (m ++ [(k, v)]) k2 d = pget m k2 d := by
  induction m with
  | nil => simp [pget, hne]
  | cons kv rest ih =>
    by_cases hk : kv.1 = k2 <;> simp [pget, hk, ih]

theorem pget_pset_ne (m : ParamMap) (k k2 : String) (v d : ℚ) (hne : k ≠ k2) :
    pget (pset m k v) k2 d = pget m k2 d := by
  unfold pset
  by_cases h : has_key m k = true
  · simp [h, pget_map_replace_ne m k k2 v d hne]
  · simp [h, pget_append_single_ne m k k2 v d hne]

/-! ### Adjusted-parameter projections -/

theorem adjust_sma_slow (p : ParamMap) (n : Nat) :
    pget (adjust_params "sma_cross" p n) "slow" 0
      = max 3 (min (pget p "slow" 50) ((n / 3 : Nat) : ℚ)) := by
  simp [adjust_params, pget_pset_same, pget_pset_ne]

theorem adjust_sma_fast (p : ParamMap) (n : Nat) :
    pget (adjust_params "sma_cross" p n) "fast" 0
      = max 2 (min (pget p "fast" 20) (min (pget p "slow" 50) ((n / 3 : Nat) : ℚ) - 1)) := by
  simp [adjust_params, pget_pset_same, pget_pset_ne]

theorem adjust_donchian_entry (p : ParamMap) (n : Nat) :
    pget (adjust_params "donchian_breakout" p n) "entry_period" 0
      = min (pget p "entry_period" 20) (max 2 ((n / 3 : Nat) : ℚ)) := by
  simp [adjust_params, pget_pset_same, pget_pset_ne]

theorem adjust_donchian_exit (p : ParamMap) (n : Nat) :
    pget (adjust_params "donchian_breakout" p n) "exit_period" 0
      = min (pget p "exit_period" 10) (max 2 ((n / 4 : Nat) : ℚ)) := by
  simp [adjust_params, pget_pset_same, pget_pset_ne]

theorem adjust_momentum_lookback (p : ParamMap) (n : Nat) :
    pget (adjust_params "momentum" p n) "lookback" 0
      = min (pget p "lookback" 60) (max 5 ((n / 2 : Nat) : ℚ)) := by
  simp [adjust_params, pget_pset_same, pget_pset_ne]

/-! ### Validation and orchestration lemmas -/

theorem validate_ok (d : DataFrame) (h5 : 5 ≤ d.n_rows)
    (hcols : required_columns.filter (fun col => !(d.columns.contains col)) = []) :
    validate (some d) = .ok d := by
  have hn0 : ¬ (d.n_rows = 0 ∨ d.columns = []) := by
    rintro (h | h)
    · omega
    · rw [h] at hcols
      simp [required_columns] at hcols
  have hn5 : ¬ d.n_rows < 5 := by omega
  simp [validate, hn0, hcols, hn5]
  intro x hx
  have h2 := List.filter_eq_nil_iff.mp hcols x hx
  simpa using h2

theorem validate_some_ok (d d2 : DataFrame) (h : validate (some d) = .ok d2) : d2 = d := by
  simp only [validate] at h
  split at h
  · exact absurd h (by simp)
  · split at h
    · exact absurd h (by simp)
    · split at h
      · exact absurd h (by simp)
      · exact ((Except.ok.injEq _ _).mp h).symm

theorem run_backtest_eq (sim : SimOracle) (d : DataFrame) (st : String) (p : ParamMap)
    (ic cm : ℚ) (h5 : 5 ≤ d.n_rows)
    (hcols : required_columns.filter (fun col => !(d.columns.contains col)) = [])
    (hst : strategy_map_keys.contains st = true) :
    run_backtest sim (some d) st p ic cm =
      match sim d st (adjust_params st p d.n_rows) ic cm with
      | .error _ => .ok (degraded_result ic)
      | .ok s => build_result s ic := by
  unfold run_backtest
  rw [validate_ok d h5 hcols]
  show run_core sim d st (adjust_params st p d.n_rows) ic cm = _
  unfold run_core
  rw [if_pos hst]

theorem build_result_fields (s : SimOk) (ic : ℚ) (r : BacktestResult)
    (h : build_result s ic = .ok r) :
    ic ≠ 0 ∧
    r.final_cash = broker_getvalue s ∧
    r.total_return = (broker_getvalue s - ic) / ic ∧
    r.sharpe = extract_sharpe s.sharpe_ok s.sharpe_raw ∧
    r.max_drawdown = extract_max_drawdown s.drawdown_ok s.drawdown_raw := by
  by_cases h0 : ic = 0
  · subst h0
    simp [build_result, pydiv] at h
  · simp only [build_result, pydiv, if_neg h0, Except.ok.injEq] at h
    refine ⟨h0, ?_, ?_, ?_, ?_⟩ <;> rw [← h]

theorem build_result_isOk (s : SimOk) (ic : ℚ) (h : ic ≠ 0) :
    ∃ r, build_result s ic = .ok r := by
  simp only [build_result, pydiv, if_neg h]
  exact ⟨_, rfl⟩

theorem run_backtest_ok_inv (sim : SimOracle) (d : DataFrame) (st : String)
    (p : ParamMap) (ic cm : ℚ) (r : BacktestResult)
    (hr : run_backtest sim (some d) st p ic cm = .ok r) :
    strategy_map_keys.contains st = true ∧
    ((∃ e, sim d st (adjust_params st p d.n_rows) ic cm = .error e ∧
        r = degraded_result ic) ∨
     (∃ s, sim d st (adjust_params st p d.n_rows) ic cm = .ok s ∧
        build_result s ic = .ok r)) := by
  unfold run_backtest at hr
  cases hval : validate (some d) with
  | error m => rw [hval] at hr; exact absurd hr (by simp)
  | ok d2 =>
    rw [hval] at hr
    have hd2 : d2 = d := validate_some_ok d d2 hval
    rw [hd2] at hr
    have hr2 : run_core sim d st (adjust_params st p d.n_rows) ic cm = Except.ok r := hr
    unfold run_core at hr2
    by_cases hst : strategy_map_keys.contains st = true
    · rw [if_pos hst] at hr2
      refine ⟨hst, ?_⟩
      cases hsim : sim d st (adjust_params st p d.n_rows) ic cm with
      | error e =>
        rw [hsim] at hr2
        have hr3 : Except.ok (degraded_result ic) = Except.ok r := hr2
        simp only [Except.ok.injEq] at hr3
        exact Or.inl ⟨e, rfl, hr3.symm⟩
      | ok s =>
        rw [hsim] at hr2
        exact Or.inr ⟨s, rfl, hr2⟩
    · rw [if_neg hst] at hr2
      exact absurd hr2 (by simp)

/-! ### Metric-extraction lemmas -/

theorem extract_max_drawdown_nonpos (ok : Bool) (v : ℚ) :
    extract_max_drawdown ok v ≤ 0 := by
  unfold extract_max_drawdown
  by_cases hok : ok = true
  · rw [if_pos hok]
    by_cases hv : v > 0
    · rw [if_pos hv]; linarith
    · rw [if_neg hv]; push_neg at hv; linarith
  · rw [if_neg hok]

theorem dd_foldl_zero : ∀ (curve : List ℚ) (peak : ℚ),
    List.Chain' (fun a b => a ≤ b) curve → (∀ v ∈ curve, 0 < v) →
    (∀ v ∈ curve.head?, peak ≤ v) → (curve.foldl dd_step (peak, 0)).2 = 0 := by
  intro curve
  induction curve with
  | nil => intro peak _ _ _; rfl
  | cons v rest ih =>
    intro peak hchain hpos hpeak
    have hpv : peak ≤ v := hpeak v rfl
    have hvpos : 0 < v := hpos v (List.mem_cons_self v rest)
    obtain ⟨hhead, htail⟩ := List.chain'_cons'.mp hchain
    have hstep : dd_step (peak, 0) v = (v, 0) := by
      simp [dd_step, max_eq_right hpv, sub_self]
    rw [List.foldl_cons, hstep]
    exact ih v htail (fun w hw => hpos w (List.mem_cons_of_mem _ hw)) hhead

theorem dd_percent_monotone (curve : List ℚ)
    (hchain : List.Chain' (fun a b => a ≤ b) curve)
    (hpos : ∀ v ∈ curve, 0 < v) : dd_percent curve = 0 := by
  unfold dd_percent
  refine dd_foldl_zero curve 0 hchain hpos ?_
  intro v hv
  cases curve with
  | nil => simp at hv
  | cons a l =>
    have hva : a = v := by simpa using hv
    subst hva
    exact (hpos a (List.mem_cons_self a l)).le

/-! ### SmaCross ordering auxiliary -/

theorem sma_fast_lt_slow_aux (a f : ℚ) : max 2 (min f (a - 1)) < max 3 a := by
  rcases le_or_lt 3 a with h | h
  · have h2 : min f (a - 1) ≤ a - 1 := min_le_right _ _
    have h3 : max 2 (min f (a - 1)) ≤ a - 1 := max_le (by linarith) h2
    have h4 : max 3 a = a := max_eq_right h
    linarith
  · have h2 : min f (a - 1) ≤ a - 1 := min_le_right _ _
    have h3 : max 2 (min f (a - 1)) = 2 := max_eq_left (by linarith)
    have h4 : (3 : ℚ) ≤ max 3 a := le_max_left _ _
    linarith

/-! ### Heap lemmas -/

theorem list_get?_set_ne {α : Type} (l : List α) (i j : Nat) (a : α) (hij : i ≠ j) :
    (l.set i a).get? j = l.get? j := by
  induction l generalizing i j with
  | nil => simp
  | cons x xs ih =>
    cases i with
    | zero =>
      cases j with
      | zero => exact absurd rfl hij
      | succ j2 => simp [List.set]
    | succ i2 =>
      cases j with
      | zero => simp [List.set]
      | succ j2 => simpa [List.set] using ih i2 j2 (by omega)

theorem list_get?_append_left {α : Type} (l l2 : List α) (j : Nat) (hj : j < l.length) :
    (l ++ l2).get? j = l.get? j := by
  induction l generalizing j with
  | nil => simp at hj
  | cons x xs ih =>
    cases j with
    | zero => rfl
    | succ j2 => simpa using ih j2 (by simpa using hj)

/-! ### Concrete fixtures used by witnesses and counterexamples -/

def sample_df : DataFrame :=
  { columns := ["Open", "High", "Low", "Close", "Volume"], n_rows := 30 }

def sample_simok : SimOk :=
  { broker_cash := 50000
    position_size := 100
    last_price := 600
    sharpe_ok := true
    sharpe_raw := some (.fin (3/2))
    drawdown_ok := true
    drawdown_raw := 0
    trades_ok := true
    trades_total := 0
    trades_won := 0
    gross_average := none
    trades_list := []
    daily_positions := [] }

def sample_sim : SimOracle := fun _ _ _ _ _ => .ok sample_simok

def fail_sim : SimOracle := fun _ _ _ _ _ => .error "boom"

def sample_result : BacktestResult :=
  { final_cash := 110000
    total_return := 1/10
    sharpe := some (.fin (3/2))
    max_drawdown := 0
    trades := []
    daily_positions := []
    win_rate := 0
    avg_trade_return := 0 }

theorem run_result_eq_some (e : Except String BacktestResult) (r : BacktestResult)
    (h : run_result e = some r) : e = .ok r := by
  cases e with
  | ok x =>
    simp only [run_result, Option.some.injEq] at h
    rw [h]
  | error m => simp [run_result] at h

theorem sample_run_eq :
    run_backtest sample_sim (some sample_df) "sma_cross" [] 100000 (1/1000)
      = .ok sample_result := by
  apply run_result_eq_some
  simp +decide [run_backtest, validate, required_columns, run_core, strategy_map_keys,
    build_result, pydiv, broker_getvalue, extract_sharpe, extract_max_drawdown, fval_beq,
    adjust_params, pget, pset, has_key, degraded_result, run_result, sample_df,
    sample_simok, sample_sim, sample_result]
  norm_num

/-! ### Claim theorems -/

/-- Claim C1 (counterexample): a run that completes the simulation with an open
position (100 shares at last price 600, broker cash 50000) returns
`final_cash = 110000`, the mark-to-market value, not the pure cash 50000 that
the claim asserts. -/
theorem c1_pure_cash_counterexample :
    (run_result (run_backtest sample_sim (some sample_df) "sma_cross" [] 100000
        (1/1000))).map (fun r => r.final_cash) = some 110000 ∧
    sample_simok.position_size ≠ 0 ∧
    sample_simok.broker_cash = 50000 ∧
    (110000 : ℚ) ≠ 50000 := by
  refine ⟨?_, by norm_num [sample_simok], by norm_num [sample_simok], by norm_num⟩
  rw [sample_run_eq]
  rfl

/-- Claim C1 (amended): for every run that completes the simulation, the
returned `final_cash` is the broker's total mark-to-market value — cash plus
position size times last price — so the value of a position still open after
the last bar is included in `final_cash`, not excluded from it. -/
theorem c1_final_cash_mark_to_market (sim : SimOracle) (d : DataFrame) (st : String)
    (p : ParamMap) (ic cm : ℚ) (s : SimOk) (r : BacktestResult)
    (hs : sim d st (adjust_params st p d.n_rows) ic cm = .ok s)
    (hr : run_backtest sim (some d) st p ic cm = .ok r) :
    r.final_cash = s.broker_cash + s.position_size * s.last_price := by
  obtain ⟨_, hcase⟩ := run_backtest_ok_inv sim d st p ic cm r hr
  rcases hcase with ⟨e, hsim, _⟩ | ⟨s2, hsim, hbuild⟩
  · rw [hs] at hsim
    exact absurd hsim (by simp)
  · rw [hs] at hsim
    have hss : s = s2 := (Except.ok.injEq _ _).mp hsim
    subst hss
    obtain ⟨_, hfc, _, _, _⟩ := build_result_fields s ic r hbuild
    rw [hfc]
    rfl

/-- Claim C1 (witness): the amended theorem applied to the concrete completed
run with an open position. -/
theorem c1_final_cash_mark_to_market_witness :
    sample_result.final_cash
      = sample_simok.broker_cash + sample_simok.position_size * sample_simok.last_price :=
  c1_final_cash_mark_to_market sample_sim sample_df "sma_cross" [] 100000 (1/1000)
    sample_simok sample_result rfl sample_run_eq

/-- Claim C2 (counterexample): with 9 rows and requested `entry_period = 1`, the
code leaves the adjusted DonchianBreakout entry period at 1, while the claimed
formula `max(2, min(requested, n div 3))` yields 2 — the constant 2 is not a
floor on the final adjusted value. -/
theorem c2_floor_counterexample :
    pget (adjust_params "donchian_breakout" [("entry_period", 1)] 9) "entry_period" 0 = 1 ∧
    max 2 (min (1 : ℚ) ((9 / 3 : Nat) : ℚ)) = 2 ∧ (1 : ℚ) ≠ 2 := by
  refine ⟨?_, by norm_num, by norm_num⟩
  rw [adjust_donchian_entry]
  norm_num [pget]

/-- Claim C2 (amended): for every series length `n ≥ 5` and requested mapping,
the adjusted values are `entryPeriod = min(requested entry default 20,
max(2, n div 3))`, `exitPeriod = min(requested exit default 10, max(2, n div 4))`
and `lookback = min(requested lookback default 60, max(5, n div 2))`: the
constants 2 and 5 floor the data-derived cap inside the min, not the final
value, so requested values below them pass through unchanged. -/
theorem c2_adjusted_formulas (p : ParamMap) (n : Nat) (h5 : 5 ≤ n) :
    pget (adjust_params "donchian_breakout" p n) "entry_period" 0
      = min (pget p "entry_period" 20) (max 2 ((n / 3 : Nat) : ℚ)) ∧
    pget (adjust_params "donchian_breakout" p n) "exit_period" 0
      = min (pget p "exit_period" 10) (max 2 ((n / 4 : Nat) : ℚ)) ∧
    pget (adjust_params "momentum" p n) "lookback" 0
      = min (pget p "lookback" 60) (max 5 ((n / 2 : Nat) : ℚ)) :=
  ⟨adjust_donchian_entry p n, adjust_donchian_exit p n, adjust_momentum_lookback p n⟩

/-- Claim C2 (witness): the amended formulas evaluated at an empty requested
mapping and 20 rows. -/
theorem c2_adjusted_formulas_witness :
    pget (adjust_params "donchian_breakout" [] 20) "entry_period" 0
      = min (pget ([] : ParamMap) "entry_period" 20) (max 2 ((20 / 3 : Nat) : ℚ)) ∧
    pget (adjust_params "donchian_breakout" [] 20) "exit_period" 0
      = min (pget ([] : ParamMap) "exit_period" 10) (max 2 ((20 / 4 : Nat) : ℚ)) ∧
    pget (adjust_params "momentum" [] 20) "lookback" 0
      = min (pget ([] : ParamMap) "lookback" 60) (max 5 ((20 / 2 : Nat) : ℚ)) :=
  c2_adjusted_formulas [] 20 (by decide)

/-- Claim C3: an error raised by the simulation run is caught at the
orchestration boundary and converted into the canonical degraded result, whose
shape is spelled out in the last conjunct; validation errors and the
unknown-strategy error are never swallowed — they propagate to the caller. -/
theorem c3_error_boundary (sim : SimOracle) (df : Option DataFrame) (st : String)
    (p : ParamMap) (ic cm : ℚ) :
    (∀ d e, df = some d → 5 ≤ d.n_rows →
      required_columns.filter (fun col => !(d.columns.contains col)) = [] →
      strategy_map_keys.contains st = true →
      sim d st (adjust_params st p d.n_rows) ic cm = .error e →
      run_backtest sim df st p ic cm = .ok (degraded_result ic)) ∧
    (∀ m, validate df = .error m → run_backtest sim df st p ic cm = .error m) ∧
    (∀ d, validate df = .ok d → strategy_map_keys.contains st = false →
      run_backtest sim df st p ic cm = .error ("Unknown strategy type: " ++ st)) ∧
    degraded_result ic =
      { final_cash := ic, total_return := 0, sharpe := none, max_drawdown := 0,
        trades := [], daily_positions := [], win_rate := 0, avg_trade_return := 0 } := by
  refine ⟨?_, ?_, ?_, rfl⟩
  · intro d e hdf h5 hcols hst hsim
    subst hdf
    rw [run_backtest_eq sim d st p ic cm h5 hcols hst, hsim]
  · intro m hm
    unfold run_backtest
    rw [hm]
  · intro d hd hst
    unfold run_backtest
    rw [hd]
    show run_core sim d st (adjust_params st p d.n_rows) ic cm = _
    unfold run_core
    rw [if_neg (by rw [hst]; simp)]

/-- Claim C3 (witness): a failing simulation on valid input yields exactly the
canonical degraded result. -/
theorem c3_error_boundary_witness :
    run_backtest fail_sim (some sample_df) "momentum" [] 100000 (1/1000)
      = .ok (degraded_result 100000) :=
  (c3_error_boundary fail_sim (some sample_df) "momentum" [] 100000 (1/1000)).1
    sample_df "boom" rfl (by decide) (by decide) (by decide) rfl

/-- Claim C4: whenever a result is returned for a valid series and supported
variant — degraded or not — its `total_return` equals
`(final_cash - initial_cash) / initial_cash` exactly. -/
theorem c4_total_return_identity (sim : SimOracle) (d : DataFrame) (st : String)
    (p : ParamMap) (ic cm : ℚ) (r : BacktestResult)
    (h5 : 5 ≤ d.n_rows)
    (hcols : required_columns.filter (fun col => !(d.columns.contains col)) = [])
    (hst : strategy_map_keys.contains st = true)
    (hr : run_backtest sim (some d) st p ic cm = .ok r) :
    r.total_return = (r.final_cash - ic) / ic := by
  obtain ⟨_, hcase⟩ := run_backtest_ok_inv sim d st p ic cm r hr
  rcases hcase with ⟨e, _, hdeg⟩ | ⟨s, _, hbuild⟩
  · rw [hdeg]
    simp [degraded_result]
  · obtain ⟨_, hfc, htr, _, _⟩ := build_result_fields s ic r hbuild
    rw [htr, hfc]

/-- Claim C4 (witness): the identity evaluated on a concrete completed run. -/
theorem c4_total_return_identity_witness :
    sample_result.total_return = (sample_result.final_cash - 100000) / 100000 :=
  c4_total_return_identity sample_sim sample_df "sma_cross" [] 100000 (1/1000)
    sample_result (by decide) (by decide) (by decide) sample_run_eq

/-- Claim C5 (counterexample): with `initial_cash = 0` on a valid series whose
simulation completes, the call does not return a result — the total-return
division raises `ZeroDivisionError`, which propagates to the caller. -/
theorem c5_zero_cash_counterexample :
    run_error_msg (run_backtest sample_sim (some sample_df) "sma_cross" [] 0 (1/1000))
      = some "ZeroDivisionError: float division by zero" := by
  simp +decide [run_backtest, validate, required_columns, run_core, strategy_map_keys,
    build_result, pydiv, broker_getvalue, adjust_params, pget, pset, has_key,
    run_error_msg, sample_df, sample_simok, sample_sim]

/-- Claim C5 (amended): a negative `initial_cash` is accepted — the call
returns a `BacktestResult` instead of raising; `initial_cash = 0`, however,
raises `ZeroDivisionError` whenever the simulation completes, so 0 only
produces a result on the degraded path. -/
theorem c5_negative_cash_accepted (sim : SimOracle) (d : DataFrame) (st : String)
    (p : ParamMap) (ic cm : ℚ) (h5 : 5 ≤ d.n_rows)
    (hcols : required_columns.filter (fun col => !(d.columns.contains col)) = [])
    (hst : strategy_map_keys.contains st = true)
    (hneg : ic < 0) :
    run_error_msg (run_backtest sim (some d) st p ic cm) = none := by
  rw [run_backtest_eq sim d st p ic cm h5 hcols hst]
  cases hsim : sim d st (adjust_params st p d.n_rows) ic cm with
  | error e => rfl
  | ok s =>
    obtain ⟨r, hrr⟩ := build_result_isOk s ic (by linarith)
    show run_error_msg (build_result s ic) = none
    rw [hrr]
    rfl

/-- Claim C5 (witness): a concrete run with `initial_cash = -100` returns a
result (no exception). -/
theorem c5_negative_cash_accepted_witness :
    run_error_msg (run_backtest sample_sim (some sample_df) "sma_cross" [] (-100)
      (1/1000)) = none :=
  c5_negative_cash_accepted sample_sim sample_df "sma_cross" [] (-100) (1/1000)
    (by decide) (by decide) (by decide) (by decide)

/-- Claim C6: for every series length `n ≥ 5` and requested mapping, the
adjusted SmaCross parameters satisfy `3 ≤ slow`, `2 ≤ fast` and `fast < slow`. -/
theorem c6_sma_parameter_invariant (p : ParamMap) (n : Nat) (h5 : 5 ≤ n) :
    3 ≤ pget (adjust_params "sma_cross" p n) "slow" 0 ∧
    2 ≤ pget (adjust_params "sma_cross" p n) "fast" 0 ∧
    pget (adjust_params "sma_cross" p n) "fast" 0
      < pget (adjust_params "sma_cross" p n) "slow" 0 := by
  rw [adjust_sma_slow, adjust_sma_fast]
  exact ⟨le_max_left _ _, le_max_left _ _, sma_fast_lt_slow_aux _ _⟩

/-- Claim C6 (witness): the invariant evaluated at an empty requested mapping
and 30 rows. -/
theorem c6_sma_parameter_invariant_witness :
    3 ≤ pget (adjust_params "sma_cross" [] 30) "slow" 0 ∧
    2 ≤ pget (adjust_params "sma_cross" [] 30) "fast" 0 ∧
    pget (adjust_params "sma_cross" [] 30) "fast" 0
      < pget (adjust_params "sma_cross" [] 30) "slow" 0 :=
  c6_sma_parameter_invariant [] 30 (by decide)

/-- Claim C7: every returned result — including the degraded result and a run
whose drawdown extraction fails — has `max_drawdown ≤ 0`; and when the
drawdown analyzer value comes from a monotonically non-decreasing positive
equity curve, `max_drawdown = 0`. -/
theorem c7_max_drawdown_bounds (sim : SimOracle) (d : DataFrame) (st : String)
    (p : ParamMap) (ic cm : ℚ) (r : BacktestResult)
    (hr : run_backtest sim (some d) st p ic cm = .ok r) :
    r.max_drawdown ≤ 0 ∧
    (∀ s curve, sim d st (adjust_params st p d.n_rows) ic cm = .ok s →
      s.drawdown_ok = true → s.drawdown_raw = dd_percent curve →
      List.Chain' (fun a b => a ≤ b) curve → (∀ v ∈ curve, 0 < v) →
      r.max_drawdown = 0) := by
  obtain ⟨_, hcase⟩ := run_backtest_ok_inv sim d st p ic cm r hr
  constructor
  · rcases hcase with ⟨e, _, hdeg⟩ | ⟨s, _, hbuild⟩
    · rw [hdeg]
      simp [degraded_result]
    · obtain ⟨_, _, _, _, hmd⟩ := build_result_fields s ic r hbuild
      rw [hmd]
      exact extract_max_drawdown_nonpos _ _
  · intro s curve hsim hok hraw hchain hpos
    rcases hcase with ⟨e, hsim2, _⟩ | ⟨s2, hsim2, hbuild⟩
    · rw [hsim] at hsim2
      exact absurd hsim2 (by simp)
    · rw [hsim] at hsim2
      have hss : s = s2 := (Except.ok.injEq _ _).mp hsim2
      subst hss
      obtain ⟨_, _, _, _, hmd⟩ := build_result_fields s ic r hbuild
      rw [hmd, hok, hraw, dd_percent_monotone curve hchain hpos]
      simp [extract_max_drawdown]

/-- Claim C7 (witness): on the concrete run whose analyzer value is the
drawdown of the monotone curve `[100, 110, 120, 130]`, `max_drawdown = 0`. -/
theorem c7_max_drawdown_bounds_witness :
    sample_result.max_drawdown = 0 :=
  (c7_max_drawdown_bounds sample_sim sample_df "sma_cross" [] 100000 (1/1000)
      sample_result sample_run_eq).2 sample_simok [100, 110, 120, 130] rfl rfl
    (by norm_num [sample_simok, dd_percent, dd_step]) (by norm_num) (by norm_num)

/-- Claim C8: for every run that completes the simulation, a Sharpe value of
NaN, +Inf or -Inf — or a failed extraction — yields `sharpe = none`, while a
defined finite value is passed through unchanged. -/
theorem c8_sharpe_sanitization (sim : SimOracle) (d : DataFrame) (st : String)
    (p : ParamMap) (ic cm : ℚ) (s : SimOk) (r : BacktestResult)
    (hs : sim d st (adjust_params st p d.n_rows) ic cm = .ok s)
    (hr : run_backtest sim (some d) st p ic cm = .ok r) :
    (s.sharpe_ok = false → r.sharpe = none) ∧
    ((s.sharpe_raw = some FVal.nan ∨ s.sharpe_raw = some FVal.pinf ∨
        s.sharpe_raw = some FVal.ninf) → r.sharpe = none) ∧
    (∀ q, s.sharpe_ok = true → s.sharpe_raw = some (FVal.fin q) →
      r.sharpe = some (FVal.fin q)) := by
  obtain ⟨_, hcase⟩ := run_backtest_ok_inv sim d st p ic cm r hr
  rcases hcase with ⟨e, hsim, _⟩ | ⟨s2, hsim, hbuild⟩
  · rw [hs] at hsim
    exact absurd hsim (by simp)
  · rw [hs] at hsim
    have hss : s = s2 := (Except.ok.injEq _ _).mp hsim
    subst hss
    obtain ⟨_, _, _, hsh, _⟩ := build_result_fields s ic r hbuild
    refine ⟨?_, ?_, ?_⟩
    · intro hok
      rw [hsh, hok]
      rfl
    · rintro (hraw | hraw | hraw) <;> rw [hsh, hraw] <;>
        cases hok : s.sharpe_ok <;> simp [extract_sharpe, fval_beq]
    · intro q hok hraw
      rw [hsh, hok, hraw]
      simp [extract_sharpe, fval_beq]

/-- Claim C8 (witness): the concrete run's finite Sharpe value 3/2 is passed
through unchanged. -/
theorem c8_sharpe_sanitization_witness :
    sample_result.sharpe = some (FVal.fin (3/2)) :=
  (c8_sharpe_sanitization sample_sim sample_df "sma_cross" [] 100000 (1/1000)
      sample_simok sample_result rfl sample_run_eq).2.2 (3/2) rfl rfl

/-- Claim C9: the engine is deterministic — two invocations with the same
simulation semantics, series, variant, parameters, cash and commission return
equal results. -/
theorem c9_determinism (sim : SimOracle) (dfa dfb : Option DataFrame)
    (sta stb : String) (pa pb : ParamMap) (ica icb cma cmb : ℚ)
    (hdf : dfa = dfb) (hst : sta = stb) (hp : pa = pb) (hic : ica = icb)
    (hcm : cma = cmb) :
    run_backtest sim dfa sta pa ica cma = run_backtest sim dfb stb pb icb cmb := by
  rw [hdf, hst, hp, hic, hcm]

/-- Claim C9 (witness): two identical concrete invocations yield the same
result value. -/
theorem c9_determinism_witness :
    run_backtest sample_sim (some sample_df) "sma_cross" [] 100000 (1/1000)
      = run_backtest sample_sim (some sample_df) "sma_cross" [] 100000 (1/1000) :=
  c9_determinism sample_sim (some sample_df) (some sample_df) "sma_cross" "sma_cross"
    [] [] 100000 100000 (1/1000) (1/1000) rfl rfl rfl rfl rfl

/-- Claim C10: the caller's strategy-parameter dict is left unchanged by
`run_backtest`: adjustment operates on a copy, so the dict the caller's
reference points to is identical after the call, whether the call returns or
raises. -/
theorem c10_caller_params_preserved (sim : SimOracle) (h : Heap) (df : Option DataFrame)
    (st : String) (r0 : Nat) (ic cm : ℚ) (hr0 : r0 < h.length) :
    heap_get (run_backtest_heap sim h df st r0 ic cm).2 r0 = heap_get h r0 := by
  unfold run_backtest_heap
  cases hval : validate df with
  | error m => rfl
  | ok d =>
    show heap_get (adjust_params_heap h r0 st d.n_rows).1 r0 = heap_get h r0
    unfold adjust_params_heap dict_copy heap_set heap_get
    rw [list_get?_set_ne _ _ _ _ (by omega), list_get?_append_left _ _ _ hr0]

/-- Claim C10 (witness): a concrete call leaves the caller's dict
`[("slow", 99)]` untouched on the heap. -/
theorem c10_caller_params_preserved_witness :
    heap_get (run_backtest_heap sample_sim [[("slow", 99)]] (some sample_df)
        "sma_cross" 0 100000 (1/1000)).2 0 = heap_get [[("slow", 99)]] 0 :=
  c10_caller_params_preserved sample_sim [[("slow", 99)]] (some sample_df) "sma_cross"
    0 100000 (1/1000) (by decide)
